import Mathlib

/-! Verification of the lazily-evaluated camera transform cache
(`src/world/Camera.ts` of `uon.engine`).

The camera state machine (dirty-flag bitmask, lazy getters, mutators,
perspective and orthographic projection variants) is embedded faithfully
from the source.  The `@uon/math` primitives (`Vector3`, `Quaternion`,
`Matrix4`) are an external library outside this repository; the spec
treats them as opaque numeric operations specified only at their
interface boundary (§6), so they are modelled here from the spec's
contracts over the real numbers.  Getters have observable side effects
(bit clearing, cache mutation), so every getter is embedded as a
function returning the read value together with the successor state;
the abstract base `updateProjection` throw is embedded with `Except`. -/

namespace Uon

noncomputable section

/-- Modelled from the spec: 3-component vector of the external `@uon/math`
library (§6 consumed capability contracts). -/
structure Vector3 where
  x : ℝ
  y : ℝ
  z : ℝ

/-- Modelled from the spec: quaternion (x, y, z, w) of `@uon/math`. -/
structure Quaternion where
  x : ℝ
  y : ℝ
  z : ℝ
  w : ℝ

/-- Modelled from the spec: 4×4 matrix of `@uon/math`; row `i`, column `j`. -/
abbrev Matrix4 := Matrix (Fin 4) (Fin 4) ℝ

def Vector3.One : Vector3 := ⟨1, 1, 1⟩

def Vector3.UnitY : Vector3 := ⟨0, 1, 0⟩

def Vector3.zero : Vector3 := ⟨0, 0, 0⟩

/-- Modelled from the spec: vector addition. -/
def Vector3.add (a b : Vector3) : Vector3 := ⟨a.x + b.x, a.y + b.y, a.z + b.z⟩

/-- Modelled from the spec: vector subtraction (used by the look-at builder). -/
def Vector3.sub (a b : Vector3) : Vector3 := ⟨a.x - b.x, a.y - b.y, a.z - b.z⟩

/-- Modelled from the spec: scalar scaling. -/
def Vector3.multiplyScalar (a : Vector3) (s : ℝ) : Vector3 := ⟨a.x * s, a.y * s, a.z * s⟩

/-- Modelled from the spec: cross product (used by the look-at builder). -/
def Vector3.cross (a b : Vector3) : Vector3 :=
  ⟨a.y * b.z - a.z * b.y, a.z * b.x - a.x * b.z, a.x * b.y - a.y * b.x⟩

/-- Modelled from the spec: normalization (division totalized at the zero
vector; degenerate inputs are unspecified per §7). -/
def Vector3.normalize (v : Vector3) : Vector3 :=
  v.multiplyScalar (1 / Real.sqrt (v.x ^ 2 + v.y ^ 2 + v.z ^ 2))

/-- Modelled from the spec: apply-quaternion-rotation on a vector. -/
def Vector3.applyQuaternion (v : Vector3) (q : Quaternion) : Vector3 :=
  let ix := q.w * v.x + q.y * v.z - q.z * v.y
  let iy := q.w * v.y + q.z * v.x - q.x * v.z
  let iz := q.w * v.z + q.x * v.y - q.y * v.x
  let iw := -q.x * v.x - q.y * v.y - q.z * v.z
  ⟨ix * q.w + iw * (-q.x) + iy * (-q.z) - iz * (-q.y),
   iy * q.w + iw * (-q.y) + iz * (-q.x) - ix * (-q.z),
   iz * q.w + iw * (-q.z) + ix * (-q.y) - iy * (-q.x)⟩

/-- Modelled from the spec: quaternion composition (Hamilton product, `a * b`). -/
def Quaternion.multiply (a b : Quaternion) : Quaternion :=
  ⟨a.x * b.w + a.w * b.x + a.y * b.z - a.z * b.y,
   a.y * b.w + a.w * b.y + a.z * b.x - a.x * b.z,
   a.z * b.w + a.w * b.z + a.x * b.y - a.y * b.x,
   a.w * b.w - a.x * b.x - a.y * b.y - a.z * b.z⟩

/-- Modelled from the spec: build-from-axis-angle (axis assumed unit length). -/
def Quaternion.fromAxisAngle (axis : Vector3) (angle : ℝ) : Quaternion :=
  ⟨axis.x * Real.sin (angle / 2), axis.y * Real.sin (angle / 2),
   axis.z * Real.sin (angle / 2), Real.cos (angle / 2)⟩

/-- Modelled from the spec: build-from-rotation-matrix (standard trace-based
extraction for the generic case; degenerate inputs are unspecified per §7). -/
def Quaternion.fromRotationMatrix (m : Matrix4) : Quaternion :=
  let w := Real.sqrt (1 + m 0 0 + m 1 1 + m 2 2) / 2
  ⟨(m 2 1 - m 1 2) / (4 * w), (m 0 2 - m 2 0) / (4 * w), (m 1 0 - m 0 1) / (4 * w), w⟩

/-- Modelled from the spec: `compose(translation, rotation, scale)` building a
TRS matrix from a translation vector, a rotation quaternion and a scale. -/
def Matrix4.compose (t : Vector3) (q : Quaternion) (s : Vector3) : Matrix4 :=
  let x2 := q.x + q.x
  let y2 := q.y + q.y
  let z2 := q.z + q.z
  let xx := q.x * x2
  let xy := q.x * y2
  let xz := q.x * z2
  let yy := q.y * y2
  let yz := q.y * z2
  let zz := q.z * z2
  let wx := q.w * x2
  let wy := q.w * y2
  let wz := q.w * z2
  !![(1 - (yy + zz)) * s.x, (xy - wz) * s.y, (xz + wy) * s.z, t.x;
     (xy + wz) * s.x, (1 - (xx + zz)) * s.y, (yz - wx) * s.z, t.y;
     (xz - wy) * s.x, (yz + wx) * s.y, (1 - (xx + yy)) * s.z, t.z;
     0, 0, 0, 1]

/-- Modelled from the spec: matrix inversion, the mathematical inverse. -/
def Matrix4.inverse (m : Matrix4) : Matrix4 := m⁻¹

/-- Modelled from the spec: matrix product; `a.multiply(b)` is `a * b`. -/
def Matrix4.multiply (a b : Matrix4) : Matrix4 := a * b

/-- Modelled from the spec: `build-look-at(eye, target, up)` rotation matrix
(generic case; degenerate inputs are unspecified per §7). -/
def Matrix4.lookAt (eye target up : Vector3) : Matrix4 :=
  let z := (eye.sub target).normalize
  let x := (up.cross z).normalize
  let y := z.cross x
  !![x.x, y.x, z.x, 0;
     x.y, y.y, z.y, 0;
     x.z, y.z, z.z, 0;
     0, 0, 0, 1]

/-- Degrees-to-radians conversion of `@uon/math`. -/
def ToRadians (d : ℝ) : ℝ := d * Real.pi / 180

/-- Radians-to-degrees conversion of `@uon/math`. -/
def ToDegrees (r : ℝ) : ℝ := r * 180 / Real.pi

/-- Modelled from the spec: `build-perspective(fov, aspect, near, far)`
(standard perspective frustum matrix, fov in degrees). -/
def Matrix4.makePerspective (fovDeg aspect near far : ℝ) : Matrix4 :=
  let f := 1 / Real.tan (ToRadians fovDeg / 2)
  !![f / aspect, 0, 0, 0;
     0, f, 0, 0;
     0, 0, (near + far) / (near - far), 2 * near * far / (near - far);
     0, 0, -1, 0]

/-- Modelled from the spec:
`build-orthographic(left, right, top, bottom, near, far)`. -/
def Matrix4.makeOrthographic (left right top bottom near far : ℝ) : Matrix4 :=
  !![2 / (right - left), 0, 0, -(right + left) / (right - left);
     0, 2 / (top - bottom), 0, -(top + bottom) / (top - bottom);
     0, 0, -2 / (far - near), -(far + near) / (far - near);
     0, 0, 0, 1]

/-! ## The dirty-flag bitmask (`enum DirtyMatrix`) -/

def DirtyMatrix.World : Nat := 1 <<< 0

def DirtyMatrix.View : Nat := 1 <<< 1

def DirtyMatrix.Projection : Nat := 1 <<< 2

def DirtyMatrix.All : Nat := DirtyMatrix.World ||| DirtyMatrix.View ||| DirtyMatrix.Projection

/-- JavaScript `~n` on a 32-bit integer, read back as an unsigned mask: the
source clears a bit with `dirtyFlag &= ~bit`. -/
def jsNot (n : Nat) : Nat := 4294967295 ^^^ n

/-! ## Camera state

The source is a class hierarchy: `Camera` (abstract `updateProjection`),
`PerspectiveCamera` and `OrthographicCamera` adding their own mutable
projection parameters.  The hierarchy is embedded as a sum `Projector`
carried inside the single state record: `.base` is an instance of the
abstract base class, the other constructors carry the subclass fields. -/

inductive Projector where
  | base
  | perspective (fov aspect near far zoom : ℝ)
  | orthographic (left right top bottom near far zoom : ℝ)

/-- The camera state: the fields of the TS class (`_frustum` is opaque
storage never operated on by this core, modelled as `Unit`). -/
structure Camera where
  _translation : Vector3
  _orientation : Quaternion
  _up : Vector3
  _world : Matrix4
  _view : Matrix4
  _projection : Matrix4
  _viewproj : Matrix4
  _frustum : Unit
  proj : Projector
  dirtyFlag : Nat

/-- `new Camera()`: identity transform, identity matrices, all bits dirty. -/
def Camera.new : Camera :=
  { _translation := Vector3.zero
    _orientation := ⟨0, 0, 0, 1⟩
    _up := Vector3.UnitY
    _world := 1
    _view := 1
    _projection := 1
    _viewproj := 1
    _frustum := ()
    proj := Projector.base
    dirtyFlag := DirtyMatrix.All }

/-- `new PerspectiveCamera(fov?, aspect?, near?, far?)`. -/
def PerspectiveCamera.new (fov aspect near far : Option ℝ) : Camera :=
  { Camera.new with
    proj := Projector.perspective (fov.getD 50) (aspect.getD 1) (near.getD 1e-6)
      (far.getD 1e27) 1 }

/-- `new OrthographicCamera(left, right, top, bottom, near?, far?)`. -/
def OrthographicCamera.new (left right top bottom : ℝ) (near far : Option ℝ) : Camera :=
  { Camera.new with
    proj := Projector.orthographic left right top bottom (near.getD 1e-6)
      (far.getD 1e27) 1 }

/-! ## Getters (each returns the read matrix and the successor state) -/

/-- `get world`. -/
def Camera.world (c : Camera) : Matrix4 × Camera :=
  if c.dirtyFlag &&& DirtyMatrix.World ≠ 0 then
    let w := Matrix4.compose c._translation c._orientation Vector3.One
    (w, { c with _world := w, dirtyFlag := c.dirtyFlag &&& jsNot DirtyMatrix.World })
  else (c._world, c)

/-- `get view`. -/
def Camera.view (c : Camera) : Matrix4 × Camera :=
  if c.dirtyFlag &&& (DirtyMatrix.World ||| DirtyMatrix.View) ≠ 0 then
    let wc := c.world
    let v := Matrix4.inverse wc.1
    (v, { wc.2 with _view := v, dirtyFlag := wc.2.dirtyFlag &&& jsNot DirtyMatrix.View })
  else (c._view, c)

/-- Effective field of view computed by `PerspectiveCamera.updateProjection`:
`ToDegrees(2 * Math.atan(Math.tan(ToRadians(fov) * 0.5) / zoom))`. -/
def effFovDeg (fov zoom : ℝ) : ℝ :=
  ToDegrees (2 * Real.arctan (Real.tan (ToRadians fov * 0.5) / zoom))

/-- `updateProjection()`: the base class throws `'Not Implemented'`; the
variants rebuild `_projection` from their current parameters. -/
def Camera.updateProjection (c : Camera) : Except String Unit × Camera :=
  match c.proj with
  | Projector.base => (Except.error "Not Implemented", c)
  | Projector.perspective fov aspect near far zoom =>
      (Except.ok (),
        { c with _projection := Matrix4.makePerspective (effFovDeg fov zoom) aspect near far })
  | Projector.orthographic left right top bottom near far zoom =>
      (Except.ok (),
        { c with
          _projection := Matrix4.makeOrthographic (left * zoom) (right * zoom)
            (top * zoom) (bottom * zoom) near far })

/-- `get projection`.  A thrown `updateProjection` propagates; the bit is
cleared only after it returns normally. -/
def Camera.projection (c : Camera) : Except String Matrix4 × Camera :=
  if c.dirtyFlag &&& DirtyMatrix.Projection ≠ 0 then
    match c.updateProjection with
    | (Except.error e, c') => (Except.error e, c')
    | (Except.ok _, c') =>
        (Except.ok c'._projection,
          { c' with dirtyFlag := c'.dirtyFlag &&& jsNot DirtyMatrix.Projection })
  else (Except.ok c._projection, c)

/-- `get viewProjection`: `this._viewproj.copy(this.view).multiply(this.projection)`
runs whenever any bit is set; `copy` lands before `this.projection` is read, so
a throw from `projection` leaves `_viewproj` holding the copied view. -/
def Camera.viewProjection (c : Camera) : Except String Matrix4 × Camera :=
  if c.dirtyFlag > 0 then
    let vc := c.view
    let c1 : Camera := { vc.2 with _viewproj := vc.1 }
    match c1.projection with
    | (Except.error e, c2) => (Except.error e, c2)
    | (Except.ok p, c2) =>
        let vp := Matrix4.multiply vc.1 p
        (Except.ok vp, { c2 with _viewproj := vp })
  else (Except.ok c._viewproj, c)

/-! ## Mutators -/

/-- `set dirty(val)`. -/
def Camera.setDirty (c : Camera) (val : Bool) : Camera :=
  { c with
    dirtyFlag :=
      c.dirtyFlag ||| (if val then DirtyMatrix.World ||| DirtyMatrix.View else 0) }

/-- `set translation(vec3)`. -/
def Camera.setTranslation (c : Camera) (vec3 : Vector3) : Camera :=
  { c with
    _translation := vec3
    dirtyFlag := c.dirtyFlag ||| (DirtyMatrix.World ||| DirtyMatrix.View) }

/-- `set orientation(quat)`. -/
def Camera.setOrientation (c : Camera) (quat : Quaternion) : Camera :=
  { c with
    _orientation := quat
    dirtyFlag := c.dirtyFlag ||| (DirtyMatrix.World ||| DirtyMatrix.View) }

/-- `translate(axis, distance)`. -/
def Camera.translate (c : Camera) (axis : Vector3) (distance : ℝ) : Camera :=
  { c with
    _translation :=
      c._translation.add ((axis.applyQuaternion c._orientation).multiplyScalar distance)
    dirtyFlag := c.dirtyFlag ||| (DirtyMatrix.World ||| DirtyMatrix.View) }

/-- `rotate(axis, angle)`. -/
def Camera.rotate (c : Camera) (axis : Vector3) (angle : ℝ) : Camera :=
  { c with
    _orientation :=
      c._orientation.multiply (Quaternion.fromAxisAngle axis angle)
    dirtyFlag := c.dirtyFlag ||| (DirtyMatrix.World ||| DirtyMatrix.View) }

/-- `lookAt(point)`. -/
def Camera.lookAt (c : Camera) (point : Vector3) : Camera :=
  { c with
    _orientation :=
      Quaternion.fromRotationMatrix (Matrix4.lookAt c._translation point c._up)
    dirtyFlag := c.dirtyFlag ||| (DirtyMatrix.World ||| DirtyMatrix.View) }

/-- `set fov(val)` of `PerspectiveCamera` (a no-op on states whose dynamic
type does not carry the field; the TS type system rules those calls out). -/
def Camera.setFov (c : Camera) (val : ℝ) : Camera :=
  match c.proj with
  | Projector.perspective _ aspect near far zoom =>
      { c with
        proj := Projector.perspective val aspect near far zoom,
        dirtyFlag := c.dirtyFlag ||| DirtyMatrix.Projection }
  | _ => c

/-- `set aspect(val)` of `PerspectiveCamera`. -/
def Camera.setAspect (c : Camera) (val : ℝ) : Camera :=
  match c.proj with
  | Projector.perspective fov _ near far zoom =>
      { c with
        proj := Projector.perspective fov val near far zoom,
        dirtyFlag := c.dirtyFlag ||| DirtyMatrix.Projection }
  | _ => c

/-- `set zoom(val)` (defined identically by both variants). -/
def Camera.setZoom (c : Camera) (val : ℝ) : Camera :=
  match c.proj with
  | Projector.perspective fov aspect near far _ =>
      { c with
        proj := Projector.perspective fov aspect near far val,
        dirtyFlag := c.dirtyFlag ||| DirtyMatrix.Projection }
  | Projector.orthographic left right top bottom near far _ =>
      { c with
        proj := Projector.orthographic left right top bottom near far val,
        dirtyFlag := c.dirtyFlag ||| DirtyMatrix.Projection }
  | _ => c

/-- `set near(val)` (defined identically by both variants). -/
def Camera.setNear (c : Camera) (val : ℝ) : Camera :=
  match c.proj with
  | Projector.perspective fov aspect _ far zoom =>
      { c with
        proj := Projector.perspective fov aspect val far zoom,
        dirtyFlag := c.dirtyFlag ||| DirtyMatrix.Projection }
  | Projector.orthographic left right top bottom _ far zoom =>
      { c with
        proj := Projector.orthographic left right top bottom val far zoom,
        dirtyFlag := c.dirtyFlag ||| DirtyMatrix.Projection }
  | _ => c

/-- `set far(val)` (defined identically by both variants). -/
def Camera.setFar (c : Camera) (val : ℝ) : Camera :=
  match c.proj with
  | Projector.perspective fov aspect near _ zoom =>
      { c with
        proj := Projector.perspective fov aspect near val zoom,
        dirtyFlag := c.dirtyFlag ||| DirtyMatrix.Projection }
  | Projector.orthographic left right top bottom near _ zoom =>
      { c with
        proj := Projector.orthographic left right top bottom near val zoom,
        dirtyFlag := c.dirtyFlag ||| DirtyMatrix.Projection }
  | _ => c

/-- `set left(val)` of `OrthographicCamera`. -/
def Camera.setLeft (c : Camera) (val : ℝ) : Camera :=
  match c.proj with
  | Projector.orthographic _ right top bottom near far zoom =>
      { c with
        proj := Projector.orthographic val right top bottom near far zoom,
        dirtyFlag := c.dirtyFlag ||| DirtyMatrix.Projection }
  | _ => c

/-- `set right(val)` of `OrthographicCamera`. -/
def Camera.setRight (c : Camera) (val : ℝ) : Camera :=
  match c.proj with
  | Projector.orthographic left _ top bottom near far zoom =>
      { c with
        proj := Projector.orthographic left val top bottom near far zoom,
        dirtyFlag := c.dirtyFlag ||| DirtyMatrix.Projection }
  | _ => c

/-- `set top(val)` of `OrthographicCamera`. -/
def Camera.setTop (c : Camera) (val : ℝ) : Camera :=
  match c.proj with
  | Projector.orthographic left right _ bottom near far zoom =>
      { c with
        proj := Projector.orthographic left right val bottom near far zoom,
        dirtyFlag := c.dirtyFlag ||| DirtyMatrix.Projection }
  | _ => c

/-- `set bottom(val)` of `OrthographicCamera`. -/
def Camera.setBottom (c : Camera) (val : ℝ) : Camera :=
  match c.proj with
  | Projector.orthographic left right top _ near far zoom =>
      { c with
        proj := Projector.orthographic left right top val near far zoom,
        dirtyFlag := c.dirtyFlag ||| DirtyMatrix.Projection }
  | _ => c

/-! ## Event sequences -/

/-- One public operation on a camera: a mutator call or a getter read. -/
inductive Event where
  | setTranslation (v : Vector3)
  | setOrientation (q : Quaternion)
  | translate (axis : Vector3) (distance : ℝ)
  | rotate (axis : Vector3) (angle : ℝ)
  | lookAt (point : Vector3)
  | setDirty (val : Bool)
  | setFov (v : ℝ)
  | setAspect (v : ℝ)
  | setZoom (v : ℝ)
  | setNear (v : ℝ)
  | setFar (v : ℝ)
  | setLeft (v : ℝ)
  | setRight (v : ℝ)
  | setTop (v : ℝ)
  | setBottom (v : ℝ)
  | readWorld
  | readView
  | readProjection
  | readViewProjection

/-- The state after one operation (for reads, the successor state). -/
def applyEvent (c : Camera) (e : Event) : Camera :=
  match e with
  | Event.setTranslation v => c.setTranslation v
  | Event.setOrientation q => c.setOrientation q
  | Event.translate axis d => c.translate axis d
  | Event.rotate axis a => c.rotate axis a
  | Event.lookAt p => c.lookAt p
  | Event.setDirty b => c.setDirty b
  | Event.setFov v => c.setFov v
  | Event.setAspect v => c.setAspect v
  | Event.setZoom v => c.setZoom v
  | Event.setNear v => c.setNear v
  | Event.setFar v => c.setFar v
  | Event.setLeft v => c.setLeft v
  | Event.setRight v => c.setRight v
  | Event.setTop v => c.setTop v
  | Event.setBottom v => c.setBottom v
  | Event.readWorld => (c.world).2
  | Event.readView => (c.view).2
  | Event.readProjection => (c.projection).2
  | Event.readViewProjection => (c.viewProjection).2

def applyEvents (c : Camera) (es : List Event) : Camera := es.foldl applyEvent c

/-- The freshly constructed states: the base class or either concrete variant
with any constructor arguments. -/
def InitialCamera (c : Camera) : Prop :=
  c = Camera.new ∨
    (∃ fov aspect near far, c = PerspectiveCamera.new fov aspect near far) ∨
    (∃ left right top bottom near far, c = OrthographicCamera.new left right top bottom near far)

/-- A state the program can actually be in: reachable from a constructor by
some sequence of mutator calls and reads. -/
def Camera.Reachable (c : Camera) : Prop :=
  ∃ c₀ es, InitialCamera c₀ ∧ c = applyEvents c₀ es

/-- The projection matrix the current variant's `updateProjection` computes
(arbitrary for the base class, whose `updateProjection` never returns). -/
def projTarget : Projector → Matrix4
  | Projector.base => 1
  | Projector.perspective fov aspect near far zoom =>
      Matrix4.makePerspective (effFovDeg fov zoom) aspect near far
  | Projector.orthographic left right top bottom near far zoom =>
      Matrix4.makeOrthographic (left * zoom) (right * zoom) (top * zoom) (bottom * zoom)
        near far

/-- Cache coherence: what the dirty bits guarantee about the cached matrices.
A clear World bit certifies `_world`, clear World and View bits certify
`_view`, a clear Projection bit certifies `_projection` (and can only occur
on a concrete variant); World dirty always implies View dirty; the bitmask
stays inside the three bits. -/
def Camera.Coherent (c : Camera) : Prop :=
  c.dirtyFlag < 8 ∧
  (c.dirtyFlag &&& DirtyMatrix.World ≠ 0 → c.dirtyFlag &&& DirtyMatrix.View ≠ 0) ∧
  (c.dirtyFlag &&& DirtyMatrix.World = 0 →
    c._world = Matrix4.compose c._translation c._orientation Vector3.One) ∧
  (c.dirtyFlag &&& (DirtyMatrix.World ||| DirtyMatrix.View) = 0 →
    c._view = Matrix4.inverse (Matrix4.compose c._translation c._orientation Vector3.One)) ∧
  (c.dirtyFlag &&& DirtyMatrix.Projection = 0 →
    c.proj ≠ Projector.base ∧ c._projection = projTarget c.proj)


/-- A mutator raising exactly the World and View bits: the Projection bit is
untouched, and the value a `projection` read returns next is unchanged. -/
def RaisesWorldView (m : Camera → Camera) : Prop :=
  ∀ c : Camera,
    (m c).dirtyFlag = c.dirtyFlag ||| (DirtyMatrix.World ||| DirtyMatrix.View) ∧
    (m c).dirtyFlag &&& DirtyMatrix.Projection = c.dirtyFlag &&& DirtyMatrix.Projection ∧
    ((m c).projection).1 = (c.projection).1

/-- A mutator raising exactly the Projection bit on the states `D` where its
field exists: World and View are untouched, and the values the `world` and
`view` reads return next are unchanged on every state. -/
def RaisesProjection (D : Camera → Prop) (m : Camera → Camera) : Prop :=
  ∀ c : Camera,
    (D c → (m c).dirtyFlag = c.dirtyFlag ||| DirtyMatrix.Projection ∧
      (m c).dirtyFlag &&& (DirtyMatrix.World ||| DirtyMatrix.View) =
        c.dirtyFlag &&& (DirtyMatrix.World ||| DirtyMatrix.View)) ∧
    ((m c).world).1 = (c.world).1 ∧ ((m c).view).1 = (c.view).1

/-- States whose dynamic type is `PerspectiveCamera`. -/
def IsPerspective (c : Camera) : Prop :=
  ∃ fov aspect near far zoom, c.proj = Projector.perspective fov aspect near far zoom

/-- States whose dynamic type is `OrthographicCamera`. -/
def IsOrthographic (c : Camera) : Prop :=
  ∃ left right top bottom near far zoom,
    c.proj = Projector.orthographic left right top bottom near far zoom

/-! ## Bitmask arithmetic -/

theorem lor_land_of_disjoint {a b : Nat} (h : a &&& b = 0) (f : Nat) :
    (f ||| a) &&& b = f &&& b := by
  apply Nat.eq_of_testBit_eq
  intro k
  have hk := congrArg (fun n => Nat.testBit n k) h
  simp only [Nat.testBit_land, Nat.testBit_lor, Nat.zero_testBit] at hk ⊢
  cases hb : Nat.testBit b k <;> cases ha : Nat.testBit a k <;> simp_all

theorem lor_land_of_le {a b : Nat} (h : b &&& a = b) (f : Nat) :
    (f ||| a) &&& b = b := by
  apply Nat.eq_of_testBit_eq
  intro k
  have hk := congrArg (fun n => Nat.testBit n k) h
  simp only [Nat.testBit_land, Nat.testBit_lor] at hk ⊢
  cases hb : Nat.testBit b k <;> cases ha : Nat.testBit a k <;> simp_all

/-! ## What one read does to the state (assuming cache coherence) -/

/-- A `world` read returns the freshly composed matrix and leaves the state
with that matrix cached and the World bit clear (when the bit was already
clear, coherence makes this the identity on the state). -/
theorem Camera.world_eq (c : Camera) (h : c.Coherent) :
    c.world = (Matrix4.compose c._translation c._orientation Vector3.One,
      { c with
        _world := Matrix4.compose c._translation c._orientation Vector3.One
        dirtyFlag := c.dirtyFlag &&& jsNot DirtyMatrix.World }) := by
  obtain ⟨h8, hwv, hw, hv, hp⟩ := h
  unfold Camera.world
  by_cases hd : c.dirtyFlag &&& DirtyMatrix.World ≠ 0
  · rw [if_pos hd]
  · rw [if_neg hd]
    push_neg at hd
    have hflag : c.dirtyFlag &&& jsNot DirtyMatrix.World = c.dirtyFlag :=
      (by decide :
        ∀ f < 8, f &&& DirtyMatrix.World = 0 → f &&& jsNot DirtyMatrix.World = f)
        _ h8 hd
    have hW := hw hd
    rw [hflag, ← hW]

theorem Camera.world_coherent (c : Camera) (h : c.Coherent) : (c.world).2.Coherent := by
  obtain ⟨h8, hwv, hw, hv, hp⟩ := h
  rw [Camera.world_eq c ⟨h8, hwv, hw, hv, hp⟩]
  dsimp only
  refine ⟨?_, ?_, fun _ => rfl, ?_, ?_⟩
  · exact (by decide : ∀ f < 8, f &&& jsNot DirtyMatrix.World < 8) _ h8
  · intro h1
    exact absurd h1 (by
      have : c.dirtyFlag &&& jsNot DirtyMatrix.World &&& DirtyMatrix.World = 0 :=
        (by decide : ∀ f < 8, f &&& jsNot DirtyMatrix.World &&& DirtyMatrix.World = 0) _ h8
      simp [this])
  · intro h3
    have : c.dirtyFlag &&& (DirtyMatrix.World ||| DirtyMatrix.View) = 0 :=
      (by decide :
        ∀ f < 8,
          f &&& jsNot DirtyMatrix.World &&& (DirtyMatrix.World ||| DirtyMatrix.View) = 0 →
          (f &&& DirtyMatrix.World ≠ 0 → f &&& DirtyMatrix.View ≠ 0) →
          f &&& (DirtyMatrix.World ||| DirtyMatrix.View) = 0) _ h8 h3 hwv
    exact hv this
  · intro h4
    have : c.dirtyFlag &&& DirtyMatrix.Projection = 0 :=
      (by decide :
        ∀ f < 8, f &&& jsNot DirtyMatrix.World &&& DirtyMatrix.Projection = 0 →
          f &&& DirtyMatrix.Projection = 0) _ h8 h4
    exact hp this

/-- A `view` read forces the `world` read first, returns the inverse of the
just-recomposed world matrix, and leaves both the World and View bits clear. -/
theorem Camera.view_eq (c : Camera) (h : c.Coherent) :
    c.view = (Matrix4.inverse (Matrix4.compose c._translation c._orientation Vector3.One),
      { c with
        _world := Matrix4.compose c._translation c._orientation Vector3.One
        _view := Matrix4.inverse (Matrix4.compose c._translation c._orientation Vector3.One)
        dirtyFlag := c.dirtyFlag &&& jsNot (DirtyMatrix.World ||| DirtyMatrix.View) }) := by
  obtain ⟨h8, hwv, hw, hv, hp⟩ := h
  unfold Camera.view
  by_cases hd : c.dirtyFlag &&& (DirtyMatrix.World ||| DirtyMatrix.View) ≠ 0
  · rw [if_pos hd, Camera.world_eq c ⟨h8, hwv, hw, hv, hp⟩]
    have hflag : c.dirtyFlag &&& jsNot DirtyMatrix.World &&& jsNot DirtyMatrix.View =
        c.dirtyFlag &&& jsNot (DirtyMatrix.World ||| DirtyMatrix.View) :=
      (by decide :
        ∀ f < 8, f &&& jsNot DirtyMatrix.World &&& jsNot DirtyMatrix.View =
          f &&& jsNot (DirtyMatrix.World ||| DirtyMatrix.View)) _ h8
    dsimp only
    rw [hflag]
  · rw [if_neg hd]
    push_neg at hd
    have h1 : c.dirtyFlag &&& DirtyMatrix.World = 0 :=
      (by decide :
        ∀ f < 8, f &&& (DirtyMatrix.World ||| DirtyMatrix.View) = 0 →
          f &&& DirtyMatrix.World = 0) _ h8 hd
    have hflag : c.dirtyFlag &&& jsNot (DirtyMatrix.World ||| DirtyMatrix.View) =
        c.dirtyFlag :=
      (by decide :
        ∀ f < 8, f &&& (DirtyMatrix.World ||| DirtyMatrix.View) = 0 →
          f &&& jsNot (DirtyMatrix.World ||| DirtyMatrix.View) = f) _ h8 hd
    have hV := hv hd
    have hW := hw h1
    rw [hflag, ← hV, ← hW]


theorem Camera.view_coherent (c : Camera) (h : c.Coherent) : (c.view).2.Coherent := by
  obtain ⟨h8, hwv, hw, hv, hp⟩ := h
  rw [Camera.view_eq c ⟨h8, hwv, hw, hv, hp⟩]
  dsimp only
  refine ⟨?_, ?_, fun _ => rfl, fun _ => rfl, ?_⟩
  · exact (by decide :
      ∀ f < 8, f &&& jsNot (DirtyMatrix.World ||| DirtyMatrix.View) < 8) _ h8
  · intro h1
    exact absurd ((by decide :
      ∀ f < 8,
        f &&& jsNot (DirtyMatrix.World ||| DirtyMatrix.View) &&& DirtyMatrix.World = 0)
      _ h8) h1
  · intro h4
    have : c.dirtyFlag &&& DirtyMatrix.Projection = 0 :=
      (by decide :
        ∀ f < 8,
          f &&& jsNot (DirtyMatrix.World ||| DirtyMatrix.View) &&& DirtyMatrix.Projection = 0 →
          f &&& DirtyMatrix.Projection = 0) _ h8 h4
    exact hp this

/-- A `projection` read on the abstract base class with the Projection bit set
propagates the `'Not Implemented'` throw and leaves the state untouched. -/
theorem Camera.projection_eq_base (c : Camera) (hb : c.proj = Projector.base)
    (hd : c.dirtyFlag &&& DirtyMatrix.Projection ≠ 0) :
    c.projection = (Except.error "Not Implemented", c) := by
  unfold Camera.projection Camera.updateProjection
  rw [if_pos hd, hb]

/-- A `projection` read on a concrete variant returns the matrix its
`updateProjection` builds from the current parameters and clears the
Projection bit. -/
theorem Camera.projection_eq_ok (c : Camera) (h : c.Coherent)
    (hb : c.proj ≠ Projector.base) :
    c.projection = (Except.ok (projTarget c.proj),
      { c with
        _projection := projTarget c.proj
        dirtyFlag := c.dirtyFlag &&& jsNot DirtyMatrix.Projection }) := by
  obtain ⟨h8, hwv, hw, hv, hp⟩ := h
  by_cases hd : c.dirtyFlag &&& DirtyMatrix.Projection ≠ 0
  · unfold Camera.projection Camera.updateProjection
    rw [if_pos hd]
    rcases hcp : c.proj with _ | ⟨fov, aspect, near, far, zoom⟩ |
        ⟨left, right, top, bottom, near, far, zoom⟩
    · exact absurd hcp hb
    · rfl
    · rfl
  · unfold Camera.projection
    rw [if_neg hd]
    push_neg at hd
    have hflag : c.dirtyFlag &&& jsNot DirtyMatrix.Projection = c.dirtyFlag :=
      (by decide :
        ∀ f < 8, f &&& DirtyMatrix.Projection = 0 →
          f &&& jsNot DirtyMatrix.Projection = f) _ h8 hd
    have hP := (hp hd).2
    rw [hflag, ← hP]

theorem Camera.projection_coherent (c : Camera) (h : c.Coherent) :
    (c.projection).2.Coherent := by
  by_cases hb : c.proj = Projector.base
  · have hd : c.dirtyFlag &&& DirtyMatrix.Projection ≠ 0 := by
      intro h0
      exact (h.2.2.2.2 h0).1 hb
    rw [Camera.projection_eq_base c hb hd]
    exact h
  · obtain ⟨h8, hwv, hw, hv, hp⟩ := h
    rw [Camera.projection_eq_ok c ⟨h8, hwv, hw, hv, hp⟩ hb]
    have e1 : c.dirtyFlag &&& jsNot DirtyMatrix.Projection &&& DirtyMatrix.World =
        c.dirtyFlag &&& DirtyMatrix.World :=
      (by decide : ∀ f < 8, f &&& jsNot DirtyMatrix.Projection &&& DirtyMatrix.World =
        f &&& DirtyMatrix.World) _ h8
    have e2 : c.dirtyFlag &&& jsNot DirtyMatrix.Projection &&& DirtyMatrix.View =
        c.dirtyFlag &&& DirtyMatrix.View :=
      (by decide : ∀ f < 8, f &&& jsNot DirtyMatrix.Projection &&& DirtyMatrix.View =
        f &&& DirtyMatrix.View) _ h8
    have e3 : c.dirtyFlag &&& jsNot DirtyMatrix.Projection &&&
          (DirtyMatrix.World ||| DirtyMatrix.View) =
        c.dirtyFlag &&& (DirtyMatrix.World ||| DirtyMatrix.View) :=
      (by decide : ∀ f < 8, f &&& jsNot DirtyMatrix.Projection &&&
        (DirtyMatrix.World ||| DirtyMatrix.View) =
        f &&& (DirtyMatrix.World ||| DirtyMatrix.View)) _ h8
    refine ⟨?_, ?_, ?_, ?_, ?_⟩
    · exact (by decide : ∀ f < 8, f &&& jsNot DirtyMatrix.Projection < 8) _ h8
    · show c.dirtyFlag &&& jsNot DirtyMatrix.Projection &&& DirtyMatrix.World ≠ 0 →
        c.dirtyFlag &&& jsNot DirtyMatrix.Projection &&& DirtyMatrix.View ≠ 0
      rw [e1, e2]
      exact hwv
    · show c.dirtyFlag &&& jsNot DirtyMatrix.Projection &&& DirtyMatrix.World = 0 →
        c._world = Matrix4.compose c._translation c._orientation Vector3.One
      rw [e1]
      exact hw
    · show c.dirtyFlag &&& jsNot DirtyMatrix.Projection &&&
          (DirtyMatrix.World ||| DirtyMatrix.View) = 0 →
        c._view = Matrix4.inverse (Matrix4.compose c._translation c._orientation Vector3.One)
      rw [e3]
      exact hv
    · intro _
      exact ⟨hb, rfl⟩


/-- A `viewProjection` read with every bit clear returns the cached combined
matrix and is the identity on the state. -/
theorem Camera.viewProjection_eq_clean (c : Camera) (hd : c.dirtyFlag = 0) :
    c.viewProjection = (Except.ok c._viewproj, c) := by
  unfold Camera.viewProjection
  rw [if_neg]
  omega


/-- A `viewProjection` read with some bit set on a concrete variant forces the
`view` and `projection` reads and caches and returns their product, leaving
every bit clear. -/
theorem Camera.viewProjection_eq_ok (c : Camera) (h : c.Coherent)
    (hb : c.proj ≠ Projector.base) (hd : c.dirtyFlag ≠ 0) :
    c.viewProjection =
      (Except.ok (Matrix4.multiply
          (Matrix4.inverse (Matrix4.compose c._translation c._orientation Vector3.One))
          (projTarget c.proj)),
        { c with
          _world := Matrix4.compose c._translation c._orientation Vector3.One
          _view := Matrix4.inverse (Matrix4.compose c._translation c._orientation Vector3.One)
          _projection := projTarget c.proj
          _viewproj := Matrix4.multiply
            (Matrix4.inverse (Matrix4.compose c._translation c._orientation Vector3.One))
            (projTarget c.proj)
          dirtyFlag := 0 }) := by
  obtain ⟨h8, hwv, hw, hv, hp⟩ := h
  unfold Camera.viewProjection
  rw [if_pos (Nat.pos_of_ne_zero hd)]
  rw [Camera.view_eq c ⟨h8, hwv, hw, hv, hp⟩]
  dsimp only
  unfold Camera.projection Camera.updateProjection
  dsimp only
  by_cases h4 : c.dirtyFlag &&& DirtyMatrix.Projection ≠ 0
  · rw [if_pos (show c.dirtyFlag &&& jsNot (DirtyMatrix.World ||| DirtyMatrix.View) &&&
        DirtyMatrix.Projection ≠ 0 from by
      rwa [(by decide : ∀ f < 8, f &&& jsNot (DirtyMatrix.World ||| DirtyMatrix.View) &&&
        DirtyMatrix.Projection = f &&& DirtyMatrix.Projection) _ h8])]
    rcases hcp : c.proj with _ | ⟨fov, aspect, near, far, zoom⟩ |
        ⟨left, right, top, bottom, near, far, zoom⟩
    · exact absurd hcp hb
    · dsimp only
      rw [(by decide : ∀ f < 8, f &&& jsNot (DirtyMatrix.World ||| DirtyMatrix.View) &&&
        jsNot DirtyMatrix.Projection = 0) _ h8]
      rfl
    · dsimp only
      rw [(by decide : ∀ f < 8, f &&& jsNot (DirtyMatrix.World ||| DirtyMatrix.View) &&&
        jsNot DirtyMatrix.Projection = 0) _ h8]
      rfl
  · push_neg at h4
    rw [if_neg (show ¬(c.dirtyFlag &&& jsNot (DirtyMatrix.World ||| DirtyMatrix.View) &&&
        DirtyMatrix.Projection ≠ 0) from by
      rw [(by decide : ∀ f < 8, f &&& jsNot (DirtyMatrix.World ||| DirtyMatrix.View) &&&
        DirtyMatrix.Projection = f &&& DirtyMatrix.Projection) _ h8]
      simpa using h4)]
    have hzero : c.dirtyFlag &&& jsNot (DirtyMatrix.World ||| DirtyMatrix.View) = 0 :=
      (by decide : ∀ f < 8, f &&& DirtyMatrix.Projection = 0 →
        f &&& jsNot (DirtyMatrix.World ||| DirtyMatrix.View) = 0) _ h8 h4
    have hP := (hp h4).2
    rw [hzero, hP]


/-- A `viewProjection` read with some bit set on the abstract base class
forces the `view` read, overwrites the combined cache with the copied view,
then propagates the `'Not Implemented'` throw from the `projection` read
(whose bit stays set). -/
theorem Camera.viewProjection_eq_err (c : Camera) (h : c.Coherent)
    (hb : c.proj = Projector.base) (hd : c.dirtyFlag ≠ 0) :
    c.viewProjection = (Except.error "Not Implemented",
      { c with
        _world := Matrix4.compose c._translation c._orientation Vector3.One
        _view := Matrix4.inverse (Matrix4.compose c._translation c._orientation Vector3.One)
        _viewproj := Matrix4.inverse (Matrix4.compose c._translation c._orientation Vector3.One)
        dirtyFlag := c.dirtyFlag &&& jsNot (DirtyMatrix.World ||| DirtyMatrix.View) }) := by
  obtain ⟨h8, hwv, hw, hv, hp⟩ := h
  have h4 : c.dirtyFlag &&& DirtyMatrix.Projection ≠ 0 := fun h0 => (hp h0).1 hb
  unfold Camera.viewProjection
  rw [if_pos (Nat.pos_of_ne_zero hd), Camera.view_eq c ⟨h8, hwv, hw, hv, hp⟩]
  dsimp only
  unfold Camera.projection Camera.updateProjection
  dsimp only
  rw [if_pos (show c.dirtyFlag &&& jsNot (DirtyMatrix.World ||| DirtyMatrix.View) &&&
      DirtyMatrix.Projection ≠ 0 from by
    rwa [(by decide : ∀ f < 8, f &&& jsNot (DirtyMatrix.World ||| DirtyMatrix.View) &&&
      DirtyMatrix.Projection = f &&& DirtyMatrix.Projection) _ h8])]
  rw [hb]

theorem Camera.viewProjection_coherent (c : Camera) (h : c.Coherent) :
    (c.viewProjection).2.Coherent := by
  by_cases hd : c.dirtyFlag = 0
  · rw [Camera.viewProjection_eq_clean c hd]
    exact h
  · by_cases hb : c.proj = Projector.base
    · obtain ⟨h8, hwv, hw, hv, hp⟩ := h
      rw [Camera.viewProjection_eq_err c ⟨h8, hwv, hw, hv, hp⟩ hb hd]
      dsimp only
      refine ⟨?_, ?_, fun _ => rfl, fun _ => rfl, ?_⟩
      · exact (by decide :
          ∀ f < 8, f &&& jsNot (DirtyMatrix.World ||| DirtyMatrix.View) < 8) _ h8
      · intro h1
        exact absurd ((by decide :
          ∀ f < 8,
            f &&& jsNot (DirtyMatrix.World ||| DirtyMatrix.View) &&& DirtyMatrix.World = 0)
          _ h8) h1
      · intro h4g
        have : c.dirtyFlag &&& DirtyMatrix.Projection = 0 :=
          (by decide :
            ∀ f < 8, f &&& jsNot (DirtyMatrix.World ||| DirtyMatrix.View) &&&
              DirtyMatrix.Projection = 0 →
              f &&& DirtyMatrix.Projection = 0) _ h8 h4g
        exact hp this
    · rw [Camera.viewProjection_eq_ok c h hb hd]
      dsimp only
      refine ⟨?_, ?_, fun _ => rfl, fun _ => rfl, ?_⟩
      · show (0 : Nat) < 8
        decide
      · intro h1
        exact absurd (by decide : (0 : Nat) &&& DirtyMatrix.World = 0) h1
      · intro _
        exact ⟨hb, rfl⟩


/-! ## Mutators preserve coherence -/

/-- Any state change that overwrites translation and orientation while
raising World and View stays coherent. -/
theorem Camera.coherent_raiseWV (c : Camera) (h : c.Coherent) (t : Vector3)
    (q : Quaternion) :
    Camera.Coherent { c with
      _translation := t
      _orientation := q
      dirtyFlag := c.dirtyFlag ||| (DirtyMatrix.World ||| DirtyMatrix.View) } := by
  obtain ⟨h8, hwv, hw, hv, hp⟩ := h
  refine ⟨?_, ?_, ?_, ?_, ?_⟩
  · show c.dirtyFlag ||| (DirtyMatrix.World ||| DirtyMatrix.View) < 8
    exact (by decide : ∀ f < 8, f ||| (DirtyMatrix.World ||| DirtyMatrix.View) < 8) _ h8
  · intro _
    show (c.dirtyFlag ||| (DirtyMatrix.World ||| DirtyMatrix.View)) &&& DirtyMatrix.View ≠ 0
    exact (by decide : ∀ f < 8,
      (f ||| (DirtyMatrix.World ||| DirtyMatrix.View)) &&& DirtyMatrix.View ≠ 0) _ h8
  · intro h1
    exact absurd h1 ((by decide : ∀ f < 8,
      (f ||| (DirtyMatrix.World ||| DirtyMatrix.View)) &&& DirtyMatrix.World ≠ 0) _ h8)
  · intro h3
    exact absurd h3 (by
      have := (by decide : ∀ f < 8,
        (f ||| (DirtyMatrix.World ||| DirtyMatrix.View)) &&&
          (DirtyMatrix.World ||| DirtyMatrix.View) ≠ 0) _ h8
      simpa using this)
  · intro h4
    have : c.dirtyFlag &&& DirtyMatrix.Projection = 0 := by
      rwa [show (({ c with
          _translation := t
          _orientation := q
          dirtyFlag := c.dirtyFlag ||| (DirtyMatrix.World ||| DirtyMatrix.View) } :
            Camera).dirtyFlag &&& DirtyMatrix.Projection) =
          c.dirtyFlag &&& DirtyMatrix.Projection from
        lor_land_of_disjoint (by decide) c.dirtyFlag] at h4
    exact hp this

/-- Any state change that overwrites the projection parameters while raising
the Projection bit stays coherent. -/
theorem Camera.coherent_raiseP (c : Camera) (h : c.Coherent) (p : Projector) :
    Camera.Coherent { c with
      proj := p
      dirtyFlag := c.dirtyFlag ||| DirtyMatrix.Projection } := by
  obtain ⟨h8, hwv, hw, hv, hp⟩ := h
  have e1 : (c.dirtyFlag ||| DirtyMatrix.Projection) &&& DirtyMatrix.World =
      c.dirtyFlag &&& DirtyMatrix.World := lor_land_of_disjoint (by decide) _
  have e2 : (c.dirtyFlag ||| DirtyMatrix.Projection) &&& DirtyMatrix.View =
      c.dirtyFlag &&& DirtyMatrix.View := lor_land_of_disjoint (by decide) _
  have e3 : (c.dirtyFlag ||| DirtyMatrix.Projection) &&&
      (DirtyMatrix.World ||| DirtyMatrix.View) =
      c.dirtyFlag &&& (DirtyMatrix.World ||| DirtyMatrix.View) :=
    lor_land_of_disjoint (by decide) _
  refine ⟨?_, ?_, ?_, ?_, ?_⟩
  · show c.dirtyFlag ||| DirtyMatrix.Projection < 8
    exact (by decide : ∀ f < 8, f ||| DirtyMatrix.Projection < 8) _ h8
  · show (c.dirtyFlag ||| DirtyMatrix.Projection) &&& DirtyMatrix.World ≠ 0 →
      (c.dirtyFlag ||| DirtyMatrix.Projection) &&& DirtyMatrix.View ≠ 0
    rw [e1, e2]
    exact hwv
  · show (c.dirtyFlag ||| DirtyMatrix.Projection) &&& DirtyMatrix.World = 0 →
      c._world = Matrix4.compose c._translation c._orientation Vector3.One
    rw [e1]
    exact hw
  · show (c.dirtyFlag ||| DirtyMatrix.Projection) &&&
      (DirtyMatrix.World ||| DirtyMatrix.View) = 0 →
      c._view = Matrix4.inverse (Matrix4.compose c._translation c._orientation Vector3.One)
    rw [e3]
    exact hv
  · intro h4
    exact absurd h4 ((by decide : ∀ f < 8,
      (f ||| DirtyMatrix.Projection) &&& DirtyMatrix.Projection ≠ 0) _ h8)

/-- `dirty = false` is a no-op on the whole state. -/
theorem Camera.setDirty_false (c : Camera) : c.setDirty false = c := by
  unfold Camera.setDirty
  simp

theorem applyEvent_coherent (c : Camera) (h : c.Coherent) (e : Event) :
    (applyEvent c e).Coherent := by
  cases e with
  | setTranslation v => exact Camera.coherent_raiseWV c h v c._orientation
  | setOrientation q => exact Camera.coherent_raiseWV c h c._translation q
  | translate axis d => exact Camera.coherent_raiseWV c h _ c._orientation
  | rotate axis a => exact Camera.coherent_raiseWV c h c._translation _
  | lookAt p => exact Camera.coherent_raiseWV c h c._translation _
  | setDirty b =>
      cases b with
      | false =>
          show (c.setDirty false).Coherent
          rw [Camera.setDirty_false]
          exact h
      | true => exact Camera.coherent_raiseWV c h c._translation c._orientation
  | setFov v =>
      show (c.setFov v).Coherent
      unfold Camera.setFov
      rcases hcp : c.proj with _ | ⟨fov, aspect, near, far, zoom⟩ |
          ⟨left, right, top, bottom, near, far, zoom⟩
      · exact h
      · exact Camera.coherent_raiseP c h _
      · exact h
  | setAspect v =>
      show (c.setAspect v).Coherent
      unfold Camera.setAspect
      rcases hcp : c.proj with _ | ⟨fov, aspect, near, far, zoom⟩ |
          ⟨left, right, top, bottom, near, far, zoom⟩
      · exact h
      · exact Camera.coherent_raiseP c h _
      · exact h
  | setZoom v =>
      show (c.setZoom v).Coherent
      unfold Camera.setZoom
      rcases hcp : c.proj with _ | ⟨fov, aspect, near, far, zoom⟩ |
          ⟨left, right, top, bottom, near, far, zoom⟩
      · exact h
      · exact Camera.coherent_raiseP c h _
      · exact Camera.coherent_raiseP c h _
  | setNear v =>
      show (c.setNear v).Coherent
      unfold Camera.setNear
      rcases hcp : c.proj with _ | ⟨fov, aspect, near, far, zoom⟩ |
          ⟨left, right, top, bottom, near, far, zoom⟩
      · exact h
      · exact Camera.coherent_raiseP c h _
      · exact Camera.coherent_raiseP c h _
  | setFar v =>
      show (c.setFar v).Coherent
      unfold Camera.setFar
      rcases hcp : c.proj with _ | ⟨fov, aspect, near, far, zoom⟩ |
          ⟨left, right, top, bottom, near, far, zoom⟩
      · exact h
      · exact Camera.coherent_raiseP c h _
      · exact Camera.coherent_raiseP c h _
  | setLeft v =>
      show (c.setLeft v).Coherent
      unfold Camera.setLeft
      rcases hcp : c.proj with _ | ⟨fov, aspect, near, far, zoom⟩ |
          ⟨left, right, top, bottom, near, far, zoom⟩
      · exact h
      · exact h
      · exact Camera.coherent_raiseP c h _
  | setRight v =>
      show (c.setRight v).Coherent
      unfold Camera.setRight
      rcases hcp : c.proj with _ | ⟨fov, aspect, near, far, zoom⟩ |
          ⟨left, right, top, bottom, near, far, zoom⟩
      · exact h
      · exact h
      · exact Camera.coherent_raiseP c h _
  | setTop v =>
      show (c.setTop v).Coherent
      unfold Camera.setTop
      rcases hcp : c.proj with _ | ⟨fov, aspect, near, far, zoom⟩ |
          ⟨left, right, top, bottom, near, far, zoom⟩
      · exact h
      · exact h
      · exact Camera.coherent_raiseP c h _
  | setBottom v =>
      show (c.setBottom v).Coherent
      unfold Camera.setBottom
      rcases hcp : c.proj with _ | ⟨fov, aspect, near, far, zoom⟩ |
          ⟨left, right, top, bottom, near, far, zoom⟩
      · exact h
      · exact h
      · exact Camera.coherent_raiseP c h _
  | readWorld => exact Camera.world_coherent c h
  | readView => exact Camera.view_coherent c h
  | readProjection => exact Camera.projection_coherent c h
  | readViewProjection => exact Camera.viewProjection_coherent c h

theorem applyEvents_coherent (es : List Event) (c : Camera) (h : c.Coherent) :
    (applyEvents c es).Coherent := by
  induction es generalizing c with
  | nil => exact h
  | cons e es ih => exact ih (applyEvent c e) (applyEvent_coherent c h e)

theorem initial_coherent (c : Camera) (h : InitialCamera c) : c.Coherent := by
  have base : ∀ p : Projector, Camera.Coherent { Camera.new with proj := p } := by
    intro p
    refine ⟨?_, ?_, ?_, ?_, ?_⟩
    · show DirtyMatrix.All < 8
      decide
    · intro _
      show DirtyMatrix.All &&& DirtyMatrix.View ≠ 0
      decide
    · intro h1
      exact absurd h1 (by decide : DirtyMatrix.All &&& DirtyMatrix.World ≠ 0)
    · intro h3
      exact absurd h3
        (by decide : DirtyMatrix.All &&& (DirtyMatrix.World ||| DirtyMatrix.View) ≠ 0)
    · intro h4
      exact absurd h4 (by decide : DirtyMatrix.All &&& DirtyMatrix.Projection ≠ 0)
  rcases h with h | ⟨fov, aspect, near, far, h⟩ | ⟨left, right, top, bottom, near, far, h⟩
  · rw [h]
    exact base Projector.base
  · rw [h]
    exact base _
  · rw [h]
    exact base _

theorem Camera.reachable_coherent (c : Camera) (h : c.Reachable) : c.Coherent := by
  obtain ⟨c₀, es, h0, rfl⟩ := h
  exact applyEvents_coherent es c₀ (initial_coherent c₀ h0)


/-! ## Numeric facts about the modelled math library -/

/-- Composing zero translation, the identity quaternion and unit scale gives
the identity matrix. -/
theorem compose_zero_id :
    Matrix4.compose Vector3.zero ⟨0, 0, 0, 1⟩ Vector3.One = 1 := by
  unfold Matrix4.compose Vector3.zero Vector3.One
  ext i j
  fin_cases i <;> fin_cases j <;>
    simp [Matrix.one_apply, Matrix.vecHead, Matrix.vecTail]

/-- The effective field of view at `fov = 90`, `zoom = 2` in closed form. -/
theorem effFovDeg_90_2 :
    effFovDeg 90 2 = 360 / Real.pi * Real.arctan (1 / 2) := by
  unfold effFovDeg ToDegrees ToRadians
  rw [show (90 : ℝ) * Real.pi / 180 * 0.5 = Real.pi / 4 by ring, Real.tan_pi_div_four]
  ring

theorem pi_div_eight_lt_arctan_half : Real.pi / 8 < Real.arctan (1 / 2) := by
  have hp := Real.pi_pos
  have h8a : (0 : ℝ) < Real.pi / 8 := by linarith
  have h8b : Real.pi / 8 < Real.pi / 2 := by linarith
  have ht0 : 0 < Real.tan (Real.pi / 8) :=
    Real.tan_pos_of_pos_of_lt_pi_div_two h8a h8b
  have ht1 : Real.tan (Real.pi / 8) < 1 := by
    have := Real.tan_lt_tan_of_nonneg_of_lt_pi_div_two (le_of_lt h8a)
      (show Real.pi / 4 < Real.pi / 2 by linarith) (show Real.pi / 8 < Real.pi / 4 by linarith)
    rwa [Real.tan_pi_div_four] at this
  have htm : Real.tan (2 * (Real.pi / 8)) =
      2 * Real.tan (Real.pi / 8) / (1 - Real.tan (Real.pi / 8) ^ 2) := Real.tan_two_mul
  rw [show 2 * (Real.pi / 8) = Real.pi / 4 by ring, Real.tan_pi_div_four] at htm
  have hden : 0 < 1 - Real.tan (Real.pi / 8) ^ 2 := by nlinarith
  have heq : 1 - Real.tan (Real.pi / 8) ^ 2 = 2 * Real.tan (Real.pi / 8) := by
    field_simp at htm
    linarith
  have htlt : Real.tan (Real.pi / 8) < 1 / 2 := by nlinarith
  have harc : Real.arctan (Real.tan (Real.pi / 8)) = Real.pi / 8 :=
    Real.arctan_tan (by linarith) h8b
  calc Real.pi / 8 = Real.arctan (Real.tan (Real.pi / 8)) := harc.symm
    _ < Real.arctan (1 / 2) := Real.arctan_strictMono htlt

theorem arctan_half_lt_half : Real.arctan (1 / 2) < 1 / 2 := by
  have hpos : 0 < Real.arctan (1 / 2) := by
    have := Real.arctan_strictMono (show (0 : ℝ) < 1 / 2 by norm_num)
    rwa [Real.arctan_zero] at this
  have h := Real.lt_tan hpos (Real.arctan_lt_pi_div_two _)
  rwa [Real.tan_arctan] at h

theorem effFovDeg_90_2_gt_45 : 45 < effFovDeg 90 2 := by
  have hp := Real.pi_pos
  rw [effFovDeg_90_2, div_mul_eq_mul_div, lt_div_iff hp]
  have := pi_div_eight_lt_arctan_half
  linarith

theorem effFovDeg_90_2_lt_58 : effFovDeg 90 2 < 58 := by
  have hp := Real.pi_pos
  have hpi := Real.pi_gt_3141592
  rw [effFovDeg_90_2, div_mul_eq_mul_div, div_lt_iff hp]
  have := arctan_half_lt_half
  nlinarith


/-! ## Reads only depend on the fields and bits that feed them -/

/-- The value a `projection` read returns depends only on the variant state,
the cached projection matrix and the Projection bit. -/
theorem Camera.projection_fst_congr (c c' : Camera) (hproj : c'.proj = c.proj)
    (hmat : c'._projection = c._projection)
    (hflag : c'.dirtyFlag &&& DirtyMatrix.Projection =
      c.dirtyFlag &&& DirtyMatrix.Projection) :
    (c'.projection).1 = (c.projection).1 := by
  unfold Camera.projection Camera.updateProjection
  by_cases hd : c.dirtyFlag &&& DirtyMatrix.Projection ≠ 0
  · rw [if_pos hd, if_pos (show c'.dirtyFlag &&& DirtyMatrix.Projection ≠ 0 from by
      rw [hflag]; exact hd)]
    rw [hproj]
    rcases c.proj with _ | ⟨fov, aspect, near, far, zoom⟩ |
        ⟨left, right, top, bottom, near, far, zoom⟩ <;> rfl
  · push_neg at hd
    rw [if_neg (show ¬c.dirtyFlag &&& DirtyMatrix.Projection ≠ 0 from by simp [hd]),
      if_neg (show ¬c'.dirtyFlag &&& DirtyMatrix.Projection ≠ 0 from by
        simp [hflag, hd])]
    dsimp only
    rw [hmat]

/-- The value a `world` read returns depends only on the transform state, the
cached world matrix and the World bit. -/
theorem Camera.world_fst_congr (c c' : Camera)
    (ht : c'._translation = c._translation) (hq : c'._orientation = c._orientation)
    (hwm : c'._world = c._world)
    (hflag : c'.dirtyFlag &&& DirtyMatrix.World = c.dirtyFlag &&& DirtyMatrix.World) :
    (c'.world).1 = (c.world).1 := by
  unfold Camera.world
  by_cases hd : c.dirtyFlag &&& DirtyMatrix.World ≠ 0
  · rw [if_pos hd, if_pos (show c'.dirtyFlag &&& DirtyMatrix.World ≠ 0 from by
      rw [hflag]; exact hd)]
    dsimp only
    rw [ht, hq]
  · push_neg at hd
    rw [if_neg (show ¬c.dirtyFlag &&& DirtyMatrix.World ≠ 0 from by simp [hd]),
      if_neg (show ¬c'.dirtyFlag &&& DirtyMatrix.World ≠ 0 from by simp [hflag, hd])]
    exact hwm

/-- The value a `view` read returns depends only on the transform state, the
cached world and view matrices, and the World and View bits. -/
theorem Camera.view_fst_congr (c c' : Camera)
    (ht : c'._translation = c._translation) (hq : c'._orientation = c._orientation)
    (hwm : c'._world = c._world) (hvm : c'._view = c._view)
    (hflag1 : c'.dirtyFlag &&& DirtyMatrix.World = c.dirtyFlag &&& DirtyMatrix.World)
    (hflag3 : c'.dirtyFlag &&& (DirtyMatrix.World ||| DirtyMatrix.View) =
      c.dirtyFlag &&& (DirtyMatrix.World ||| DirtyMatrix.View)) :
    (c'.view).1 = (c.view).1 := by
  unfold Camera.view
  by_cases hd : c.dirtyFlag &&& (DirtyMatrix.World ||| DirtyMatrix.View) ≠ 0
  · rw [if_pos hd, if_pos (show c'.dirtyFlag &&&
        (DirtyMatrix.World ||| DirtyMatrix.View) ≠ 0 from by
      rw [hflag3]; exact hd)]
    dsimp only
    rw [Camera.world_fst_congr c c' ht hq hwm hflag1]
  · push_neg at hd
    rw [if_neg (show ¬c.dirtyFlag &&& (DirtyMatrix.World ||| DirtyMatrix.View) ≠ 0 from by
        simp [hd]),
      if_neg (show ¬c'.dirtyFlag &&& (DirtyMatrix.World ||| DirtyMatrix.View) ≠ 0 from by
        simp [hflag3, hd])]
    exact hvm


/-! ## The claims -/

/-- C1: in every reachable state (any sequence of mutator calls interleaved
with reads), a `world` read returns `compose(translation, orientation,
unit-scale)` for the translation and orientation at the time of the read; in
particular a default-constructed camera's first `world` read returns the
identity matrix. -/
theorem claim_world_read (c : Camera) (h : c.Reachable) :
    (c.world).1 = Matrix4.compose c._translation c._orientation Vector3.One ∧
    (Camera.new.world).1 = 1 := by
  constructor
  · rw [Camera.world_eq c (Camera.reachable_coherent c h)]
  · rw [Camera.world_eq Camera.new
      (Camera.reachable_coherent _ ⟨Camera.new, [], Or.inl rfl, rfl⟩)]
    exact compose_zero_id

theorem claim_world_read_check :
    Camera.Reachable Camera.new ∧
    (Camera.new.world).1 =
      Matrix4.compose Camera.new._translation Camera.new._orientation Vector3.One :=
  ⟨⟨Camera.new, [], Or.inl rfl, rfl⟩,
    (claim_world_read Camera.new ⟨Camera.new, [], Or.inl rfl, rfl⟩).1⟩

/-- C2: in every reachable state, a `view` read forces the `world` read first
(the successor state holds the recomposed world matrix and has the World and
View bits clear) and returns the inverse of that just-validated world matrix,
so the returned view is the inverse of the world matrix of the same
translation/orientation snapshot. -/
theorem claim_view_read (c : Camera) (h : c.Reachable) :
    (c.view).1 =
      Matrix4.inverse (Matrix4.compose c._translation c._orientation Vector3.One) ∧
    (c.view).2._world = Matrix4.compose c._translation c._orientation Vector3.One ∧
    (c.view).2.dirtyFlag &&& (DirtyMatrix.World ||| DirtyMatrix.View) = 0 ∧
    (c.view).1 = Matrix4.inverse ((c.view).2._world) := by
  have hc := Camera.reachable_coherent c h
  have h8 := hc.1
  rw [Camera.view_eq c hc]
  refine ⟨rfl, rfl, ?_, rfl⟩
  exact (by decide : ∀ f < 8, f &&& jsNot (DirtyMatrix.World ||| DirtyMatrix.View) &&&
    (DirtyMatrix.World ||| DirtyMatrix.View) = 0) _ h8

theorem claim_view_read_check :
    Camera.Reachable Camera.new ∧
    (Camera.new.view).1 = Matrix4.inverse
      (Matrix4.compose Camera.new._translation Camera.new._orientation Vector3.One) :=
  ⟨⟨Camera.new, [], Or.inl rfl, rfl⟩,
    (claim_view_read Camera.new ⟨Camera.new, [], Or.inl rfl, rfl⟩).1⟩

/-- C6: the base class `updateProjection` raises the unimplemented-operation
failure and never returns normally, both when invoked directly and through a
`projection` or `viewProjection` read with the Projection bit set. -/
theorem claim_base_updateProjection (c : Camera) (hb : c.proj = Projector.base) :
    c.updateProjection = (Except.error "Not Implemented", c) ∧
    (c.dirtyFlag &&& DirtyMatrix.Projection ≠ 0 →
      c.projection = (Except.error "Not Implemented", c)) ∧
    (c.Coherent → c.dirtyFlag ≠ 0 →
      (c.viewProjection).1 = Except.error "Not Implemented") := by
  refine ⟨?_, fun hd => Camera.projection_eq_base c hb hd, fun hc hd => ?_⟩
  · unfold Camera.updateProjection
    rw [hb]
  · rw [Camera.viewProjection_eq_err c hc hb hd]

theorem claim_base_updateProjection_check :
    Camera.new.proj = Projector.base ∧
    Camera.new.dirtyFlag &&& DirtyMatrix.Projection ≠ 0 ∧
    Camera.new.projection = (Except.error "Not Implemented", Camera.new) ∧
    (Camera.new.viewProjection).1 = Except.error "Not Implemented" :=
  ⟨rfl, by decide,
    (claim_base_updateProjection Camera.new rfl).2.1 (by decide),
    (claim_base_updateProjection Camera.new rfl).2.2
      (initial_coherent Camera.new (Or.inl rfl)) (by decide)⟩

/-- C9: `dirty = true` sets exactly the World and View bits whatever the
current bitmask (never touching the Projection bit), so the next `world` and
`view` reads recompute; `dirty = false` leaves the whole state unchanged. -/
theorem claim_dirty_setter (c : Camera) :
    (c.setDirty true).dirtyFlag =
      c.dirtyFlag ||| (DirtyMatrix.World ||| DirtyMatrix.View) ∧
    (c.setDirty true).dirtyFlag &&& DirtyMatrix.Projection =
      c.dirtyFlag &&& DirtyMatrix.Projection ∧
    c.setDirty false = c ∧
    ((c.setDirty true).world).1 =
      Matrix4.compose c._translation c._orientation Vector3.One ∧
    ((c.setDirty true).view).1 =
      Matrix4.inverse (Matrix4.compose c._translation c._orientation Vector3.One) := by
  have hw : (c.setDirty true).dirtyFlag &&& DirtyMatrix.World ≠ 0 := by
    show (c.dirtyFlag ||| (DirtyMatrix.World ||| DirtyMatrix.View)) &&&
      DirtyMatrix.World ≠ 0
    rw [lor_land_of_le (by decide) c.dirtyFlag]
    decide
  have hwv : (c.setDirty true).dirtyFlag &&&
      (DirtyMatrix.World ||| DirtyMatrix.View) ≠ 0 := by
    show (c.dirtyFlag ||| (DirtyMatrix.World ||| DirtyMatrix.View)) &&&
      (DirtyMatrix.World ||| DirtyMatrix.View) ≠ 0
    rw [lor_land_of_le (by decide) c.dirtyFlag]
    decide
  refine ⟨rfl, lor_land_of_disjoint (by decide) _, Camera.setDirty_false c, ?_, ?_⟩
  · unfold Camera.world
    rw [if_pos hw]
    rfl
  · unfold Camera.view
    rw [if_pos hwv]
    unfold Camera.world
    rw [if_pos hw]
    rfl

/-- C10: when the Projection bit is set on the abstract base, a `projection`
read propagates the throw with the state unchanged: the Projection bit stays
set, the cached projection matrix is untouched, and a later read raises
again. -/
theorem claim_projection_error_path (c : Camera) (hb : c.proj = Projector.base)
    (hd : c.dirtyFlag &&& DirtyMatrix.Projection ≠ 0) :
    (c.projection).1 = Except.error "Not Implemented" ∧
    (c.projection).2 = c ∧
    (c.projection).2.dirtyFlag &&& DirtyMatrix.Projection ≠ 0 ∧
    (c.projection).2._projection = c._projection ∧
    ((c.projection).2.projection).1 = Except.error "Not Implemented" := by
  have he := Camera.projection_eq_base c hb hd
  rw [he]
  exact ⟨rfl, rfl, hd, rfl, by rw [Camera.projection_eq_base c hb hd]⟩

theorem claim_projection_error_path_check :
    Camera.new.proj = Projector.base ∧
    Camera.new.dirtyFlag &&& DirtyMatrix.Projection ≠ 0 ∧
    (Camera.new.projection).2 = Camera.new :=
  ⟨rfl, by decide, (claim_projection_error_path Camera.new rfl (by decide)).2.1⟩


/-- C3: in every reachable state, `viewProjection` checks whether any bit is
set before the dependent getters run: with no bit set it returns the cached
combined matrix with the state unchanged; with any bit set (on a concrete
variant) it performs the one recombination Combined = View · Projection
through the dependent getters, which leaves every bit clear. -/
theorem claim_viewProjection_read (c : Camera) (h : c.Reachable) :
    (c.dirtyFlag = 0 → c.viewProjection = (Except.ok c._viewproj, c)) ∧
    (c.dirtyFlag ≠ 0 → c.proj ≠ Projector.base →
      (c.viewProjection).1 = Except.ok (Matrix4.multiply
        (Matrix4.inverse (Matrix4.compose c._translation c._orientation Vector3.One))
        (projTarget c.proj)) ∧
      (c.viewProjection).2._viewproj = Matrix4.multiply
        (Matrix4.inverse (Matrix4.compose c._translation c._orientation Vector3.One))
        (projTarget c.proj) ∧
      (c.viewProjection).2.dirtyFlag = 0) := by
  have hc := Camera.reachable_coherent c h
  refine ⟨fun hd => Camera.viewProjection_eq_clean c hd, fun hd hb => ?_⟩
  rw [Camera.viewProjection_eq_ok c hc hb hd]
  exact ⟨rfl, rfl, rfl⟩

theorem claim_viewProjection_read_check :
    Camera.Reachable (PerspectiveCamera.new none none none none) ∧
    (PerspectiveCamera.new none none none none).dirtyFlag ≠ 0 ∧
    (PerspectiveCamera.new none none none none).proj ≠ Projector.base ∧
    ((PerspectiveCamera.new none none none none).viewProjection).2.dirtyFlag = 0 := by
  have hr : Camera.Reachable (PerspectiveCamera.new none none none none) :=
    ⟨_, [], Or.inr (Or.inl ⟨none, none, none, none, rfl⟩), rfl⟩
  have hd : (PerspectiveCamera.new none none none none).dirtyFlag ≠ 0 := by decide
  have hb : (PerspectiveCamera.new none none none none).proj ≠ Projector.base :=
    fun hcontra => Projector.noConfusion hcontra
  exact ⟨hr, hd, hb, ((claim_viewProjection_read _ hr).2 hd hb).2.2⟩

/-- C5: on a reachable camera with a concrete projection variant, after a
`viewProjection` access all three bits are clear, and a second immediate
access returns the identical matrix with the state unchanged (no
recomputation). -/
theorem claim_viewProjection_cached (c : Camera) (h : c.Reachable)
    (hb : c.proj ≠ Projector.base) :
    (c.viewProjection).2.dirtyFlag = 0 ∧
    ((c.viewProjection).2.viewProjection).1 = (c.viewProjection).1 ∧
    ((c.viewProjection).2.viewProjection).2 = (c.viewProjection).2 := by
  have hc := Camera.reachable_coherent c h
  by_cases hd : c.dirtyFlag = 0
  · rw [Camera.viewProjection_eq_clean c hd]
    dsimp only
    rw [Camera.viewProjection_eq_clean c hd]
    exact ⟨hd, rfl, rfl⟩
  · rw [Camera.viewProjection_eq_ok c hc hb hd]
    dsimp only
    rw [Camera.viewProjection_eq_clean _ rfl]
    exact ⟨rfl, rfl, rfl⟩

theorem claim_viewProjection_cached_check :
    Camera.Reachable (PerspectiveCamera.new none none none none) ∧
    (PerspectiveCamera.new none none none none).proj ≠ Projector.base ∧
    (((PerspectiveCamera.new none none none none).viewProjection).2.viewProjection).1 =
      ((PerspectiveCamera.new none none none none).viewProjection).1 := by
  have hr : Camera.Reachable (PerspectiveCamera.new none none none none) :=
    ⟨_, [], Or.inr (Or.inl ⟨none, none, none, none, rfl⟩), rfl⟩
  have hb : (PerspectiveCamera.new none none none none).proj ≠ Projector.base :=
    fun hcontra => Projector.noConfusion hcontra
  exact ⟨hr, hb, (claim_viewProjection_cached _ hr hb).2.1⟩

/-- C7: the perspective `updateProjection` builds the matrix from the
effective field of view `ToDegrees(2 * atan(tan(ToRadians fov * 0.5) / zoom))`
and the unmodified aspect, near, far; at `fov = 90`, `zoom = 2` the effective
field of view is `(360 / π) * atan(1 / 2)`, which lies strictly between 45°
and 58° (≈ 53.13°) and in particular is not 45°. -/
theorem claim_perspective_updateProjection (c : Camera)
    (fov aspect near far zoom : ℝ)
    (h : c.proj = Projector.perspective fov aspect near far zoom) :
    c.updateProjection = (Except.ok (),
      { c with
        _projection := Matrix4.makePerspective (effFovDeg fov zoom) aspect near far }) ∧
    effFovDeg fov zoom =
      ToDegrees (2 * Real.arctan (Real.tan (ToRadians fov * 0.5) / zoom)) ∧
    effFovDeg 90 2 = 360 / Real.pi * Real.arctan (1 / 2) ∧
    45 < effFovDeg 90 2 ∧
    effFovDeg 90 2 < 58 ∧
    effFovDeg 90 2 ≠ 45 := by
  refine ⟨?_, rfl, effFovDeg_90_2, effFovDeg_90_2_gt_45, effFovDeg_90_2_lt_58,
    ne_of_gt effFovDeg_90_2_gt_45⟩
  unfold Camera.updateProjection
  rw [h]

theorem claim_perspective_updateProjection_check :
    ((PerspectiveCamera.new (some 90) (some 1) (some 0.1) (some 100)).setZoom 2).proj =
      Projector.perspective 90 1 0.1 100 2 ∧
    45 < effFovDeg 90 2 :=
  ⟨rfl, (claim_perspective_updateProjection
    ((PerspectiveCamera.new (some 90) (some 1) (some 0.1) (some 100)).setZoom 2)
    90 1 0.1 100 2 rfl).2.2.2.1⟩

/-- C8: the orthographic `updateProjection` builds the matrix from each of
left, right, top, bottom multiplied by zoom with near and far passed through
unscaled; for bounds (-1, 1, 1, -1) and zoom 2 the scaled bounds are
(-2, 2, 2, -2). -/
theorem claim_orthographic_updateProjection (c : Camera)
    (left right top bottom near far zoom : ℝ)
    (h : c.proj = Projector.orthographic left right top bottom near far zoom) :
    c.updateProjection = (Except.ok (),
      { c with
        _projection := Matrix4.makeOrthographic (left * zoom) (right * zoom)
          (top * zoom) (bottom * zoom) near far }) ∧
    (∀ nearv farv : ℝ,
      Matrix4.makeOrthographic ((-1) * 2) (1 * 2) (1 * 2) ((-1) * 2) nearv farv =
        Matrix4.makeOrthographic (-2) 2 2 (-2) nearv farv) := by
  refine ⟨?_, fun nearv farv => by norm_num⟩
  unfold Camera.updateProjection
  rw [h]

theorem claim_orthographic_updateProjection_check :
    ((OrthographicCamera.new (-1) 1 1 (-1) none none).setZoom 2).proj =
      Projector.orthographic (-1) 1 1 (-1) 1e-6 1e27 2 ∧
    ((OrthographicCamera.new (-1) 1 1 (-1) none none).setZoom 2).updateProjection =
      (Except.ok (),
        { (OrthographicCamera.new (-1) 1 1 (-1) none none).setZoom 2 with
          _projection := Matrix4.makeOrthographic ((-1) * 2) (1 * 2) (1 * 2) ((-1) * 2)
            1e-6 1e27 }) :=
  ⟨rfl, (claim_orthographic_updateProjection
    ((OrthographicCamera.new (-1) 1 1 (-1) none none).setZoom 2)
    (-1) 1 1 (-1) 1e-6 1e27 2 rfl).1⟩


/-! ## Helper obligations for the mutator bit contract -/

theorem raisesWV_of (m : Camera → Camera)
    (hflag : ∀ c, (m c).dirtyFlag =
      c.dirtyFlag ||| (DirtyMatrix.World ||| DirtyMatrix.View))
    (hproj : ∀ c : Camera, (m c).proj = c.proj)
    (hmat : ∀ c : Camera, (m c)._projection = c._projection) :
    RaisesWorldView m := by
  intro c
  refine ⟨hflag c, ?_, ?_⟩
  · rw [hflag c]
    exact lor_land_of_disjoint (by decide) _
  · exact Camera.projection_fst_congr c (m c) (hproj c) (hmat c)
      (by rw [hflag c]; exact lor_land_of_disjoint (by decide) _)

theorem raiseP_obligations (c : Camera) (p : Projector) :
    ((({ c with proj := p, dirtyFlag := c.dirtyFlag ||| DirtyMatrix.Projection } :
        Camera).dirtyFlag = c.dirtyFlag ||| DirtyMatrix.Projection) ∧
      ({ c with proj := p, dirtyFlag := c.dirtyFlag ||| DirtyMatrix.Projection } :
        Camera).dirtyFlag &&& (DirtyMatrix.World ||| DirtyMatrix.View) =
        c.dirtyFlag &&& (DirtyMatrix.World ||| DirtyMatrix.View)) ∧
    ((({ c with proj := p, dirtyFlag := c.dirtyFlag ||| DirtyMatrix.Projection } :
        Camera).world).1 = (c.world).1 ∧
      (({ c with proj := p, dirtyFlag := c.dirtyFlag ||| DirtyMatrix.Projection } :
        Camera).view).1 = (c.view).1) := by
  refine ⟨⟨rfl, lor_land_of_disjoint (by decide) _⟩, ?_, ?_⟩
  · exact Camera.world_fst_congr c _ rfl rfl rfl (lor_land_of_disjoint (by decide) _)
  · exact Camera.view_fst_congr c _ rfl rfl rfl rfl
      (lor_land_of_disjoint (by decide) _) (lor_land_of_disjoint (by decide) _)

/-- C4: every mutator that changes translation or orientation (the
translation and orientation setters, `translate`, `rotate`, `lookAt`, and
`dirty = true`) sets exactly World and View, never Projection, and leaves the
value of the next `projection` read unchanged; every projection-parameter
setter (fov, aspect, zoom, near, far, left, right, top, bottom) sets exactly
Projection, never World or View, and leaves the values of the next `world`
and `view` reads unchanged. -/
theorem claim_mutator_bits :
    (∀ v, RaisesWorldView (fun c => c.setTranslation v)) ∧
    (∀ q, RaisesWorldView (fun c => c.setOrientation q)) ∧
    (∀ axis d, RaisesWorldView (fun c => c.translate axis d)) ∧
    (∀ axis a, RaisesWorldView (fun c => c.rotate axis a)) ∧
    (∀ p, RaisesWorldView (fun c => c.lookAt p)) ∧
    RaisesWorldView (fun c => c.setDirty true) ∧
    (∀ v, RaisesProjection IsPerspective (fun c => c.setFov v)) ∧
    (∀ v, RaisesProjection IsPerspective (fun c => c.setAspect v)) ∧
    (∀ v, RaisesProjection (fun c => IsPerspective c ∨ IsOrthographic c)
      (fun c => c.setZoom v)) ∧
    (∀ v, RaisesProjection (fun c => IsPerspective c ∨ IsOrthographic c)
      (fun c => c.setNear v)) ∧
    (∀ v, RaisesProjection (fun c => IsPerspective c ∨ IsOrthographic c)
      (fun c => c.setFar v)) ∧
    (∀ v, RaisesProjection IsOrthographic (fun c => c.setLeft v)) ∧
    (∀ v, RaisesProjection IsOrthographic (fun c => c.setRight v)) ∧
    (∀ v, RaisesProjection IsOrthographic (fun c => c.setTop v)) ∧
    (∀ v, RaisesProjection IsOrthographic (fun c => c.setBottom v)) := by
  refine ⟨fun v => raisesWV_of _ (fun c => rfl) (fun c => rfl) (fun c => rfl),
    fun q => raisesWV_of _ (fun c => rfl) (fun c => rfl) (fun c => rfl),
    fun axis d => raisesWV_of _ (fun c => rfl) (fun c => rfl) (fun c => rfl),
    fun axis a => raisesWV_of _ (fun c => rfl) (fun c => rfl) (fun c => rfl),
    fun p => raisesWV_of _ (fun c => rfl) (fun c => rfl) (fun c => rfl),
    raisesWV_of _ (fun c => rfl) (fun c => rfl) (fun c => rfl),
    ?_, ?_, ?_, ?_, ?_, ?_, ?_, ?_, ?_⟩
  · intro v c
    constructor
    · rintro ⟨fov, aspect, near, far, zoom, hcp⟩
      have heq : c.setFov v = { c with
          proj := Projector.perspective v aspect near far zoom
          dirtyFlag := c.dirtyFlag ||| DirtyMatrix.Projection } := by
        unfold Camera.setFov
        rw [hcp]
      dsimp only
      rw [heq]
      exact (raiseP_obligations c _).1
    · rcases hcp : c.proj with _ | ⟨fov, aspect, near, far, zoom⟩ |
          ⟨left, right, top, bottom, near, far, zoom⟩
      · have heq : c.setFov v = c := by unfold Camera.setFov; rw [hcp]
        dsimp only
        rw [heq]
        exact ⟨rfl, rfl⟩
      · have heq : c.setFov v = { c with
            proj := Projector.perspective v aspect near far zoom
            dirtyFlag := c.dirtyFlag ||| DirtyMatrix.Projection } := by
          unfold Camera.setFov
          rw [hcp]
        dsimp only
        rw [heq]
        exact (raiseP_obligations c _).2
      · have heq : c.setFov v = c := by unfold Camera.setFov; rw [hcp]
        dsimp only
        rw [heq]
        exact ⟨rfl, rfl⟩
  · intro v c
    constructor
    · rintro ⟨fov, aspect, near, far, zoom, hcp⟩
      have heq : c.setAspect v = { c with
          proj := Projector.perspective fov v near far zoom
          dirtyFlag := c.dirtyFlag ||| DirtyMatrix.Projection } := by
        unfold Camera.setAspect
        rw [hcp]
      dsimp only
      rw [heq]
      exact (raiseP_obligations c _).1
    · rcases hcp : c.proj with _ | ⟨fov, aspect, near, far, zoom⟩ |
          ⟨left, right, top, bottom, near, far, zoom⟩
      · have heq : c.setAspect v = c := by unfold Camera.setAspect; rw [hcp]
        dsimp only
        rw [heq]
        exact ⟨rfl, rfl⟩
      · have heq : c.setAspect v = { c with
            proj := Projector.perspective fov v near far zoom
            dirtyFlag := c.dirtyFlag ||| DirtyMatrix.Projection } := by
          unfold Camera.setAspect
          rw [hcp]
        dsimp only
        rw [heq]
        exact (raiseP_obligations c _).2
      · have heq : c.setAspect v = c := by unfold Camera.setAspect; rw [hcp]
        dsimp only
        rw [heq]
        exact ⟨rfl, rfl⟩
  · intro v c
    constructor
    · rintro (⟨fov, aspect, near, far, zoom, hcp⟩ |
        ⟨left, right, top, bottom, near, far, zoom, hcp⟩)
      · have heq : c.setZoom v = { c with
            proj := Projector.perspective fov aspect near far v
            dirtyFlag := c.dirtyFlag ||| DirtyMatrix.Projection } := by
          unfold Camera.setZoom
          rw [hcp]
        dsimp only
        rw [heq]
        exact (raiseP_obligations c _).1
      · have heq : c.setZoom v = { c with
            proj := Projector.orthographic left right top bottom near far v
            dirtyFlag := c.dirtyFlag ||| DirtyMatrix.Projection } := by
          unfold Camera.setZoom
          rw [hcp]
        dsimp only
        rw [heq]
        exact (raiseP_obligations c _).1
    · rcases hcp : c.proj with _ | ⟨fov, aspect, near, far, zoom⟩ |
          ⟨left, right, top, bottom, near, far, zoom⟩
      · have heq : c.setZoom v = c := by unfold Camera.setZoom; rw [hcp]
        dsimp only
        rw [heq]
        exact ⟨rfl, rfl⟩
      · have heq : c.setZoom v = { c with
            proj := Projector.perspective fov aspect near far v
            dirtyFlag := c.dirtyFlag ||| DirtyMatrix.Projection } := by
          unfold Camera.setZoom
          rw [hcp]
        dsimp only
        rw [heq]
        exact (raiseP_obligations c _).2
      · have heq : c.setZoom v = { c with
            proj := Projector.orthographic left right top bottom near far v
            dirtyFlag := c.dirtyFlag ||| DirtyMatrix.Projection } := by
          unfold Camera.setZoom
          rw [hcp]
        dsimp only
        rw [heq]
        exact (raiseP_obligations c _).2
  · intro v c
    constructor
    · rintro (⟨fov, aspect, near, far, zoom, hcp⟩ |
        ⟨left, right, top, bottom, near, far, zoom, hcp⟩)
      · have heq : c.setNear v = { c with
            proj := Projector.perspective fov aspect v far zoom
            dirtyFlag := c.dirtyFlag ||| DirtyMatrix.Projection } := by
          unfold Camera.setNear
          rw [hcp]
        dsimp only
        rw [heq]
        exact (raiseP_obligations c _).1
      · have heq : c.setNear v = { c with
            proj := Projector.orthographic left right top bottom v far zoom
            dirtyFlag := c.dirtyFlag ||| DirtyMatrix.Projection } := by
          unfold Camera.setNear
          rw [hcp]
        dsimp only
        rw [heq]
        exact (raiseP_obligations c _).1
    · rcases hcp : c.proj with _ | ⟨fov, aspect, near, far, zoom⟩ |
          ⟨left, right, top, bottom, near, far, zoom⟩
      · have heq : c.setNear v = c := by unfold Camera.setNear; rw [hcp]
        dsimp only
        rw [heq]
        exact ⟨rfl, rfl⟩
      · have heq : c.setNear v = { c with
            proj := Projector.perspective fov aspect v far zoom
            dirtyFlag := c.dirtyFlag ||| DirtyMatrix.Projection } := by
          unfold Camera.setNear
          rw [hcp]
        dsimp only
        rw [heq]
        exact (raiseP_obligations c _).2
      · have heq : c.setNear v = { c with
            proj := Projector.orthographic left right top bottom v far zoom
            dirtyFlag := c.dirtyFlag ||| DirtyMatrix.Projection } := by
          unfold Camera.setNear
          rw [hcp]
        dsimp only
        rw [heq]
        exact (raiseP_obligations c _).2
  · intro v c
    constructor
    · rintro (⟨fov, aspect, near, far, zoom, hcp⟩ |
        ⟨left, right, top, bottom, near, far, zoom, hcp⟩)
      · have heq : c.setFar v = { c with
            proj := Projector.perspective fov aspect near v zoom
            dirtyFlag := c.dirtyFlag ||| DirtyMatrix.Projection } := by
          unfold Camera.setFar
          rw [hcp]
        dsimp only
        rw [heq]
        exact (raiseP_obligations c _).1
      · have heq : c.setFar v = { c with
            proj := Projector.orthographic left right top bottom near v zoom
            dirtyFlag := c.dirtyFlag ||| DirtyMatrix.Projection } := by
          unfold Camera.setFar
          rw [hcp]
        dsimp only
        rw [heq]
        exact (raiseP_obligations c _).1
    · rcases hcp : c.proj with _ | ⟨fov, aspect, near, far, zoom⟩ |
          ⟨left, right, top, bottom, near, far, zoom⟩
      · have heq : c.setFar v = c := by unfold Camera.setFar; rw [hcp]
        dsimp only
        rw [heq]
        exact ⟨rfl, rfl⟩
      · have heq : c.setFar v = { c with
            proj := Projector.perspective fov aspect near v zoom
            dirtyFlag := c.dirtyFlag ||| DirtyMatrix.Projection } := by
          unfold Camera.setFar
          rw [hcp]
        dsimp only
        rw [heq]
        exact (raiseP_obligations c _).2
      · have heq : c.setFar v = { c with
            proj := Projector.orthographic left right top bottom near v zoom
            dirtyFlag := c.dirtyFlag ||| DirtyMatrix.Projection } := by
          unfold Camera.setFar
          rw [hcp]
        dsimp only
        rw [heq]
        exact (raiseP_obligations c _).2
  · intro v c
    constructor
    · rintro ⟨left, right, top, bottom, near, far, zoom, hcp⟩
      have heq : c.setLeft v = { c with
          proj := Projector.orthographic v right top bottom near far zoom
          dirtyFlag := c.dirtyFlag ||| DirtyMatrix.Projection } := by
        unfold Camera.setLeft
        rw [hcp]
      dsimp only
      rw [heq]
      exact (raiseP_obligations c _).1
    · rcases hcp : c.proj with _ | ⟨fov, aspect, near, far, zoom⟩ |
          ⟨left, right, top, bottom, near, far, zoom⟩
      · have heq : c.setLeft v = c := by unfold Camera.setLeft; rw [hcp]
        dsimp only
        rw [heq]
        exact ⟨rfl, rfl⟩
      · have heq : c.setLeft v = c := by unfold Camera.setLeft; rw [hcp]
        dsimp only
        rw [heq]
        exact ⟨rfl, rfl⟩
      · have heq : c.setLeft v = { c with
            proj := Projector.orthographic v right top bottom near far zoom
            dirtyFlag := c.dirtyFlag ||| DirtyMatrix.Projection } := by
          unfold Camera.setLeft
          rw [hcp]
        dsimp only
        rw [heq]
        exact (raiseP_obligations c _).2
  · intro v c
    constructor
    · rintro ⟨left, right, top, bottom, near, far, zoom, hcp⟩
      have heq : c.setRight v = { c with
          proj := Projector.orthographic left v top bottom near far zoom
          dirtyFlag := c.dirtyFlag ||| DirtyMatrix.Projection } := by
        unfold Camera.setRight
        rw [hcp]
      dsimp only
      rw [heq]
      exact (raiseP_obligations c _).1
    · rcases hcp : c.proj with _ | ⟨fov, aspect, near, far, zoom⟩ |
          ⟨left, right, top, bottom, near, far, zoom⟩
      · have heq : c.setRight v = c := by unfold Camera.setRight; rw [hcp]
        dsimp only
        rw [heq]
        exact ⟨rfl, rfl⟩
      · have heq : c.setRight v = c := by unfold Camera.setRight; rw [hcp]
        dsimp only
        rw [heq]
        exact ⟨rfl, rfl⟩
      · have heq : c.setRight v = { c with
            proj := Projector.orthographic left v top bottom near far zoom
            dirtyFlag := c.dirtyFlag ||| DirtyMatrix.Projection } := by
          unfold Camera.setRight
          rw [hcp]
        dsimp only
        rw [heq]
        exact (raiseP_obligations c _).2
  · intro v c
    constructor
    · rintro ⟨left, right, top, bottom, near, far, zoom, hcp⟩
      have heq : c.setTop v = { c with
          proj := Projector.orthographic left right v bottom near far zoom
          dirtyFlag := c.dirtyFlag ||| DirtyMatrix.Projection } := by
        unfold Camera.setTop
        rw [hcp]
      dsimp only
      rw [heq]
      exact (raiseP_obligations c _).1
    · rcases hcp : c.proj with _ | ⟨fov, aspect, near, far, zoom⟩ |
          ⟨left, right, top, bottom, near, far, zoom⟩
      · have heq : c.setTop v = c := by unfold Camera.setTop; rw [hcp]
        dsimp only
        rw [heq]
        exact ⟨rfl, rfl⟩
      · have heq : c.setTop v = c := by unfold Camera.setTop; rw [hcp]
        dsimp only
        rw [heq]
        exact ⟨rfl, rfl⟩
      · have heq : c.setTop v = { c with
            proj := Projector.orthographic left right v bottom near far zoom
            dirtyFlag := c.dirtyFlag ||| DirtyMatrix.Projection } := by
          unfold Camera.setTop
          rw [hcp]
        dsimp only
        rw [heq]
        exact (raiseP_obligations c _).2
  · intro v c
    constructor
    · rintro ⟨left, right, top, bottom, near, far, zoom, hcp⟩
      have heq : c.setBottom v = { c with
          proj := Projector.orthographic left right top v near far zoom
          dirtyFlag := c.dirtyFlag ||| DirtyMatrix.Projection } := by
        unfold Camera.setBottom
        rw [hcp]
      dsimp only
      rw [heq]
      exact (raiseP_obligations c _).1
    · rcases hcp : c.proj with _ | ⟨fov, aspect, near, far, zoom⟩ |
          ⟨left, right, top, bottom, near, far, zoom⟩
      · have heq : c.setBottom v = c := by unfold Camera.setBottom; rw [hcp]
        dsimp only
        rw [heq]
        exact ⟨rfl, rfl⟩
      · have heq : c.setBottom v = c := by unfold Camera.setBottom; rw [hcp]
        dsimp only
        rw [heq]
        exact ⟨rfl, rfl⟩
      · have heq : c.setBottom v = { c with
            proj := Projector.orthographic left right top v near far zoom
            dirtyFlag := c.dirtyFlag ||| DirtyMatrix.Projection } := by
          unfold Camera.setBottom
          rw [hcp]
        dsimp only
        rw [heq]
        exact (raiseP_obligations c _).2

theorem claim_mutator_bits_check :
    IsPerspective (PerspectiveCamera.new none none none none) ∧
    ((PerspectiveCamera.new none none none none).setFov 60).dirtyFlag =
      (PerspectiveCamera.new none none none none).dirtyFlag ||| DirtyMatrix.Projection ∧
    ((PerspectiveCamera.new none none none none).setTranslation ⟨1, 2, 3⟩).dirtyFlag =
      (PerspectiveCamera.new none none none none).dirtyFlag |||
        (DirtyMatrix.World ||| DirtyMatrix.View) := by
  have hP : IsPerspective (PerspectiveCamera.new none none none none) :=
    ⟨50, 1, 1e-6, 1e27, 1, rfl⟩
  refine ⟨hP, ?_, ?_⟩
  · exact ((claim_mutator_bits.2.2.2.2.2.2.1 60
      (PerspectiveCamera.new none none none none)).1 hP).1
  · exact (claim_mutator_bits.1 ⟨1, 2, 3⟩
      (PerspectiveCamera.new none none none none)).1

end

end Uon
